import Mathlib

set_option maxRecDepth 4000

/-!
Verification development for the StockTradebyZ backtesting core.

The definitions below are a shallow embedding of the Python sources:

* `src/backtest/backtest_utils.py` (class `BacktestBase`): trading-cost and
  equity arithmetic;
* `src/backtest/strategies/base_strategy.py` (class `BaseStrategy`):
  weighted-average cost and the main `backtest` simulation loop;
* `src/backtest/strategies/stop_loss_strategy.py` (class `StopLossStrategy`):
  the stop-loss variant of the simulation loop;
* `src/backtest/strategies/combined_strategy.py` (class `CombinedStrategy`):
  signal fusion of sub-strategies;
* `src/backtest/strategy_manager.py` (class `StrategyManager`): the registry.

Python float arithmetic is embedded as exact rational arithmetic over the
field of rationals, Python `int` as the integers, and a pandas `DataFrame`
row as a `Bar` record carrying the columns the simulation loop reads.
A Python exception is embedded as the `Except.error` case of an
`Except` value.
-/

/-- One row of the bar series `self.data`: the price/volume columns plus the
`signal` column produced by `generate_signals` (+1 buy, -1 sell, 0 hold).
The row label `date` (the DataFrame index value bound to `index` in
`for index, row in self.data.iterrows()`) is embedded as a natural number. -/
structure Bar where
  date : ℕ
  open_p : ℚ
  high : ℚ
  low : ℚ
  close : ℚ
  volume : ℚ
  signal : ℤ
deriving DecidableEq

/-- A default bar, used as the out-of-range fallback of list indexing. -/
def defaultBar : Bar :=
  { date := 0, open_p := 0, high := 0, low := 0, close := 0, volume := 0, signal := 0 }

/-- One entry of `self.trades`: the dict literal appended by the simulation
loops.  The dict key `type` is embedded as the field `ttype` (value `"buy"`
or `"sell"`); `sell_reason` is the optional key that only the stop-loss
variant's sell branch writes. -/
structure Trade where
  date : ℕ
  price : ℚ
  quantity : ℤ
  ttype : String
  cost : ℚ
  stock_value : ℚ
  total_asset : ℚ
  position_profit : ℚ
  sell_reason : Option String := none
deriving DecidableEq

/-- A default trade, used as the out-of-range fallback of list indexing. -/
def defaultTrade : Trade :=
  { date := 0, price := 0, quantity := 0, ttype := "", cost := 0, stock_value := 0,
    total_asset := 0, position_profit := 0, sell_reason := none }

/-- Python `int(x)` applied to a float: truncation toward zero. -/
def pyInt (q : ℚ) : ℤ :=
  if 0 ≤ q then ⌊q⌋ else ⌈q⌉

/-- Python `max(a, b)` on two numbers. -/
def pymax (a b : ℚ) : ℚ :=
  if a ≤ b then b else a

/-- The constant `self.lot_size = 100` set in `BacktestBase.__init__`. -/
def lot_size : ℤ := 100

namespace BacktestBase

/-- Embedding of `BacktestBase.calculate_trading_cost(price, quantity, is_buy)`
returning `(total_cost, commission, stamp_duty)`. -/
def calculate_trading_cost (price quantity : ℚ) (is_buy : Bool) : ℚ × ℚ × ℚ :=
  let commission_rate : ℚ := 3 / 10000
  let stamp_duty_rate : ℚ := if is_buy then 0 else 1 / 1000
  let transfer_fee_rate : ℚ := 2 / 100000
  let min_commission : ℚ := 5
  let commission := pymax (price * quantity * commission_rate) min_commission
  let stamp_duty := price * quantity * stamp_duty_rate
  let transfer_fee := price * quantity * transfer_fee_rate
  let total_cost := commission + stamp_duty + transfer_fee
  (total_cost, commission, stamp_duty)

/-- Embedding of `BacktestBase.calculate_equity(current_price)`:
`self.current_cash + self.position * current_price`, with the instance
attributes passed explicitly. -/
def calculate_equity (current_cash : ℚ) (position : ℤ) (current_price : ℚ) : ℚ :=
  current_cash + (position : ℚ) * current_price

end BacktestBase

/-- Run configuration of `BaseStrategy`: `initial_cash` and the
`position_ratio` attribute (here named `position_frac`). -/
structure BTConfig where
  initial_cash : ℚ
  position_frac : ℚ
deriving DecidableEq

/-- The run-scoped mutable attributes of `BaseStrategy.backtest`. -/
structure BTState where
  current_cash : ℚ
  position : ℤ
  avg_cost : ℚ
  trades : List Trade
  equity_curve : List ℚ
  current_equity : ℚ
deriving DecidableEq

namespace BaseStrategy

/-- Embedding of `BaseStrategy.calculate_average_cost(new_quantity, new_price)`
with the instance attributes `self.position` and `self.avg_cost` passed
explicitly; returns the new average cost that the method stores back into
`self.avg_cost`. -/
def calculate_average_cost (position : ℤ) (avg_cost : ℚ)
    (new_quantity : ℤ) (new_price : ℚ) : ℚ :=
  if position = 0 then new_price
  else
    let total_cost_before := (position : ℚ) * avg_cost
    let total_cost_new := (new_quantity : ℚ) * new_price
    let total_quantity := (position : ℚ) + (new_quantity : ℚ)
    (total_cost_before + total_cost_new) / total_quantity

/-- The local `max_buy_amount = self.current_cash * self.position_ratio` of
the buy branch; `frac` stands for the `position_ratio` attribute. -/
def max_buy_amount (frac current_cash : ℚ) : ℚ :=
  current_cash * frac

/-- The local `buy_amount_per_lot = row['close'] * self.lot_size` of the buy
branch. -/
def buy_amount_per_lot (close : ℚ) : ℚ :=
  close * (lot_size : ℚ)

/-- The local `max_buy_lots = int(max_buy_amount / buy_amount_per_lot)` of
the buy branch. -/
def max_buy_lots (frac current_cash close : ℚ) : ℤ :=
  pyInt (max_buy_amount frac current_cash / buy_amount_per_lot close)

/-- The local `buy_quantity = max_buy_lots * self.lot_size` of the buy
branch. -/
def buy_quantity (frac current_cash close : ℚ) : ℤ :=
  max_buy_lots frac current_cash close * lot_size

/-- The local `total_cost` of the buy branch: the total trading cost of
buying `buy_quantity` shares at `close`. -/
def buy_total_cost (frac current_cash close : ℚ) : ℚ :=
  (BacktestBase.calculate_trading_cost close ((buy_quantity frac current_cash close : ℤ) : ℚ)
    true).1

/-- The local `total_required = buy_quantity * row['close'] + total_cost` of
the buy branch. -/
def total_required (frac current_cash close : ℚ) : ℚ :=
  ((buy_quantity frac current_cash close : ℤ) : ℚ) * close +
    buy_total_cost frac current_cash close

/-- The local `total_cost` of the sell branch: the total trading cost of
selling `position` shares at `close`. -/
def sell_total_cost (position : ℤ) (close : ℚ) : ℚ :=
  (BacktestBase.calculate_trading_cost close (position : ℚ) false).1

/-- The local `net_revenue = revenue - total_cost` of the sell branch, with
`revenue = sell_quantity * row['close']`. -/
def net_revenue (position : ℤ) (close : ℚ) : ℚ :=
  (position : ℚ) * close - sell_total_cost position close

/-- The signal-handling part of one iteration of the `BaseStrategy.backtest`
loop (everything after the equity recording): the buy branch for
`row['signal'] == 1`, the sell branch for `row['signal'] == -1 and
self.position > 0`, and no state change otherwise.  The Python locals are
the helper definitions above. -/
def process_signal (cfg : BTConfig) (st : BTState) (index : ℕ)
    (close : ℚ) (signal : ℤ) : BTState :=
  if signal = 1 then
    if max_buy_lots cfg.position_frac st.current_cash close > 0 then
      if total_required cfg.position_frac st.current_cash close ≤ st.current_cash then
        { st with
          trades := st.trades ++
            [{ date := index, price := close,
               quantity := buy_quantity cfg.position_frac st.current_cash close, ttype := "buy",
               cost := buy_total_cost cfg.position_frac st.current_cash close,
               stock_value :=
                 ((st.position + buy_quantity cfg.position_frac st.current_cash close : ℤ) : ℚ) * close,
               total_asset := st.current_cash - total_required cfg.position_frac st.current_cash close +
                 ((st.position + buy_quantity cfg.position_frac st.current_cash close : ℤ) : ℚ) * close,
               position_profit :=
                 (close - calculate_average_cost st.position st.avg_cost
                     (buy_quantity cfg.position_frac st.current_cash close) close) *
                   ((st.position + buy_quantity cfg.position_frac st.current_cash close : ℤ) : ℚ) }],
          position := st.position + buy_quantity cfg.position_frac st.current_cash close,
          current_cash := st.current_cash - total_required cfg.position_frac st.current_cash close,
          avg_cost := calculate_average_cost st.position st.avg_cost
            (buy_quantity cfg.position_frac st.current_cash close) close }
      else st
    else st
  else if signal = -1 ∧ st.position > 0 then
    { st with
      trades := st.trades ++
        [{ date := index, price := close, quantity := st.position, ttype := "sell",
           cost := sell_total_cost st.position close, stock_value := 0,
           total_asset := st.current_cash + net_revenue st.position close,
           position_profit :=
             if st.position > 0 then (close - st.avg_cost) * (st.position : ℚ) else 0 }],
      position := 0,
      current_cash := st.current_cash + net_revenue st.position close,
      avg_cost := 0 }
  else st

/-- The equity recording at the top of each loop iteration: append
`self.calculate_equity(row['close'])` to `self.equity_curve` and store it in
`self.current_equity`. -/
def record_equity (st : BTState) (close : ℚ) : BTState :=
  { st with
    current_equity := BacktestBase.calculate_equity st.current_cash st.position close,
    equity_curve := st.equity_curve ++
      [BacktestBase.calculate_equity st.current_cash st.position close] }

/-- One full iteration of the `BaseStrategy.backtest` loop over one bar:
record equity into the curve first, then handle the bar's signal. -/
def step (cfg : BTConfig) (st : BTState) (bar : Bar) : BTState :=
  process_signal cfg (record_equity st bar.close) bar.date bar.close bar.signal

/-- The freshly reset run state at the top of `BaseStrategy.backtest`. -/
def initState (cfg : BTConfig) : BTState :=
  { current_cash := cfg.initial_cash, position := 0, avg_cost := 0,
    trades := [], equity_curve := [], current_equity := cfg.initial_cash }

/-- The run state after `BaseStrategy.backtest` has consumed all bars. -/
def backtest_state (cfg : BTConfig) (bars : List Bar) : BTState :=
  bars.foldl (step cfg) (initState cfg)

end BaseStrategy

/-- The dict returned by `BaseStrategy.backtest` (and by the stop-loss
variant's `backtest`). -/
structure BacktestResult where
  trades : List Trade
  equity_curve : List ℚ
  final_equity : ℚ
  initial_equity : ℚ
  return_rate : ℚ
deriving DecidableEq

namespace BaseStrategy

/-- Embedding of `BaseStrategy.backtest()` on a given bar series. -/
def backtest (cfg : BTConfig) (bars : List Bar) : BacktestResult :=
  let st := backtest_state cfg bars
  { trades := st.trades, equity_curve := st.equity_curve,
    final_equity := st.current_equity, initial_equity := cfg.initial_cash,
    return_rate := (st.current_equity - cfg.initial_cash) / cfg.initial_cash }

end BaseStrategy

/-- Run configuration of `StopLossStrategy`: the `BaseStrategy` parameters
plus the stop-loss parameters from `StopLossStrategy.__init__`. -/
structure SLConfig where
  initial_cash : ℚ
  position_frac : ℚ
  stop_loss_pct : ℚ
  days_threshold : ℕ
  min_profit_pct : ℚ
deriving DecidableEq

/-- The run-scoped mutable attributes of `StopLossStrategy.backtest`: those of
`BaseStrategy` plus `buy_date`, `buy_price` and `holding_days`. -/
structure SLState where
  current_cash : ℚ
  position : ℤ
  avg_cost : ℚ
  trades : List Trade
  equity_curve : List ℚ
  current_equity : ℚ
  buy_date : Option ℕ
  buy_price : ℚ
  holding_days : ℕ
deriving DecidableEq

namespace StopLossStrategy

/-- The fixed-stop condition of `StopLossStrategy.backtest`:
`row['close'] <= stop_loss_price` with
`stop_loss_price = self.buy_price * (1 - self.stop_loss_pct)`. -/
abbrev stop_loss_condition (cfg : SLConfig) (buy_price close : ℚ) : Prop :=
  close ≤ buy_price * (1 - cfg.stop_loss_pct)

/-- The time-stop condition of `StopLossStrategy.backtest`:
`self.holding_days >= self.days_threshold and price_change_pct <
self.min_profit_pct`, where `price_change_pct = (row['close'] -
self.buy_price) / self.buy_price` and `holding_days` is the value after the
increment at the top of the holding branch. -/
abbrev time_stop_condition (cfg : SLConfig) (holding_days : ℕ) (buy_price close : ℚ) : Prop :=
  holding_days ≥ cfg.days_threshold ∧ (close - buy_price) / buy_price < cfg.min_profit_pct

/-- The part of one `StopLossStrategy.backtest` loop iteration after the
equity recording: while holding, increment `holding_days` and check the two
stop conditions (selling everything with a `sell_reason` when either holds);
otherwise handle a buy signal exactly as the base engine does, additionally
recording `buy_date`, `buy_price` and resetting `holding_days`. -/
def handle_bar (cfg : SLConfig) (st : SLState) (bar : Bar) : SLState :=
  if st.position > 0 then
    if stop_loss_condition cfg st.buy_price bar.close ∨
        time_stop_condition cfg (st.holding_days + 1) st.buy_price bar.close then
      { st with
        trades := st.trades ++
          [{ date := bar.date, price := bar.close, quantity := st.position, ttype := "sell",
             cost := BaseStrategy.sell_total_cost st.position bar.close, stock_value := 0,
             total_asset := st.current_cash + BaseStrategy.net_revenue st.position bar.close,
             position_profit :=
               if st.position > 0 then (bar.close - st.avg_cost) * (st.position : ℚ) else 0,
             sell_reason := some (if stop_loss_condition cfg st.buy_price bar.close
               then "固定止损" else "时间止损") }],
        position := 0,
        current_cash := st.current_cash + BaseStrategy.net_revenue st.position bar.close,
        avg_cost := 0,
        buy_date := none,
        buy_price := 0,
        holding_days := 0 }
    else
      { st with holding_days := st.holding_days + 1 }
  else if bar.signal = 1 then
    if BaseStrategy.max_buy_lots cfg.position_frac st.current_cash bar.close > 0 then
      if BaseStrategy.total_required cfg.position_frac st.current_cash bar.close ≤
          st.current_cash then
        { st with
          trades := st.trades ++
            [{ date := bar.date, price := bar.close,
               quantity := BaseStrategy.buy_quantity cfg.position_frac st.current_cash bar.close,
               ttype := "buy",
               cost := BaseStrategy.buy_total_cost cfg.position_frac st.current_cash bar.close,
               stock_value :=
                 ((st.position +
                   BaseStrategy.buy_quantity cfg.position_frac st.current_cash bar.close : ℤ) : ℚ)
                   * bar.close,
               total_asset := st.current_cash -
                 BaseStrategy.total_required cfg.position_frac st.current_cash bar.close +
                 ((st.position +
                   BaseStrategy.buy_quantity cfg.position_frac st.current_cash bar.close : ℤ) : ℚ)
                   * bar.close,
               position_profit :=
                 (bar.close - BaseStrategy.calculate_average_cost st.position st.avg_cost
                     (BaseStrategy.buy_quantity cfg.position_frac st.current_cash bar.close)
                     bar.close) *
                   ((st.position +
                     BaseStrategy.buy_quantity cfg.position_frac st.current_cash bar.close :
                       ℤ) : ℚ) }],
          position := st.position +
            BaseStrategy.buy_quantity cfg.position_frac st.current_cash bar.close,
          current_cash := st.current_cash -
            BaseStrategy.total_required cfg.position_frac st.current_cash bar.close,
          avg_cost := BaseStrategy.calculate_average_cost st.position st.avg_cost
            (BaseStrategy.buy_quantity cfg.position_frac st.current_cash bar.close) bar.close,
          buy_date := some bar.date,
          buy_price := bar.close,
          holding_days := 0 }
      else st
    else st
  else st

/-- The equity recording at the top of each `StopLossStrategy.backtest` loop
iteration. -/
def record_equity (st : SLState) (close : ℚ) : SLState :=
  { st with
    current_equity := BacktestBase.calculate_equity st.current_cash st.position close,
    equity_curve := st.equity_curve ++
      [BacktestBase.calculate_equity st.current_cash st.position close] }

/-- One full iteration of the `StopLossStrategy.backtest` loop over one bar:
record equity into the curve first, then run the stop/entry handling. -/
def step (cfg : SLConfig) (st : SLState) (bar : Bar) : SLState :=
  handle_bar cfg (record_equity st bar.close) bar

/-- The freshly reset run state at the top of `StopLossStrategy.backtest`. -/
def initState (cfg : SLConfig) : SLState :=
  { current_cash := cfg.initial_cash, position := 0, avg_cost := 0,
    trades := [], equity_curve := [], current_equity := cfg.initial_cash,
    buy_date := none, buy_price := 0, holding_days := 0 }

/-- The run state after `StopLossStrategy.backtest` has consumed all bars. -/
def backtest_state (cfg : SLConfig) (bars : List Bar) : SLState :=
  bars.foldl (step cfg) (initState cfg)

/-- Embedding of `StopLossStrategy.backtest()` on a given bar series. -/
def backtest (cfg : SLConfig) (bars : List Bar) : BacktestResult :=
  let st := backtest_state cfg bars
  { trades := st.trades, equity_curve := st.equity_curve,
    final_equity := st.current_equity, initial_equity := cfg.initial_cash,
    return_rate := (st.current_equity - cfg.initial_cash) / cfg.initial_cash }

end StopLossStrategy

/-- One bar of a holding streak in the stop-loss variant: the position is
held on entry and neither exit condition fires on this bar. -/
def holds_without_exit (cfg : SLConfig) (st : SLState) (bar : Bar) : Prop :=
  0 < st.position ∧
  ¬ StopLossStrategy.stop_loss_condition cfg st.buy_price bar.close ∧
  ¬ StopLossStrategy.time_stop_condition cfg (st.holding_days + 1) st.buy_price bar.close

/-- A whole holding streak: every bar of the list is processed while the
position is held and without an exit firing. -/
def all_held (cfg : SLConfig) : SLState → List Bar → Prop
  | _, [] => True
  | st, b :: bs =>
    holds_without_exit cfg st b ∧ all_held cfg (StopLossStrategy.step cfg st b) bs

/-- A raised Python exception, carrying its message. -/
inductive PyError
  | valueError (msg : String)
  | exception (msg : String)
deriving DecidableEq

/-- A sub-strategy as `CombinedStrategy` observes it: its registry name, the
outcome of calling its `calculate_indicators()` method, and the outcome of
calling its `generate_signals()` method.  For `generate_signals`,
`Except.error` embeds a raised exception, `Except.ok none` a run that left no
`signal` column in the sub-strategy's data, and `Except.ok (some col)` a run
that produced the per-bar signal column `col`. -/
structure SubStrategy where
  name : String
  calc_indicators : Except PyError Unit
  gen_signals : Except PyError (Option (List ℤ))

namespace CombinedStrategy

/-- Embedding of a `try: ... except: pass` around a statement. -/
def try_except_pass (r : Except PyError Unit) : Except PyError Unit :=
  match r with
  | .ok u => .ok u
  | .error _ => .ok ()

/-- Embedding of `CombinedStrategy.calculate_indicators`: call each
sub-strategy's `calculate_indicators()` inside `try: ... except: pass`. -/
def calculate_indicators : List SubStrategy → Except PyError Unit
  | [] => .ok ()
  | s :: rest => do
      let _ ← try_except_pass s.calc_indicators
      calculate_indicators rest

/-- The first phase of `CombinedStrategy.generate_signals`: run each
sub-strategy's `generate_signals()` (a raised exception propagates), and save
the per-strategy `signal_<name>` column whenever the sub-strategy's data has a
`signal` column (a sub-strategy without one is skipped). -/
def collect_signal_columns : List SubStrategy → Except PyError (List (String × List ℤ))
  | [] => .ok []
  | s :: rest => do
      match s.gen_signals with
      | .error e => .error e
      | .ok none => collect_signal_columns rest
      | .ok (some col) => do
          let cols ← collect_signal_columns rest
          .ok ((s.name, col) :: cols)

/-- The per-bar value of a saved `signal_<name>` column at row `i`. -/
def signal_at (col : List ℤ) (i : ℕ) : ℤ :=
  col.getD i 0

/-- The per-bar value at row `i` of the `combined_buy` mask of
`CombinedStrategy.generate_signals`: the conjunction of `signal_<name> == 1`
over every saved column (with no saved column, no buy assignment happens). -/
def combined_buy (cols : List (String × List ℤ)) (i : ℕ) : Bool :=
  !cols.isEmpty && cols.all (fun p => signal_at p.2 i == 1)

/-- The per-bar value at row `i` of the `combined_sell` mask of
`CombinedStrategy.generate_signals`: the disjunction of `signal_<name> == -1`
over every saved column. -/
def combined_sell (cols : List (String × List ℤ)) (i : ℕ) : Bool :=
  cols.any (fun p => signal_at p.2 i == -1)

/-- The final value of the composite `signal` column at row `i`.  The
composite initializes the column to 0, but `initialize_sub_strategies`
aliases every sub-strategy's `data` to the composite's own DataFrame, and
each sub-strategy's `generate_signals()` rewrites the shared `signal`
column; so after the loop that runs the sub-strategies the column holds the
signals of the last sub-strategy to run (the last saved column), and only
then are rows where `combined_buy` holds assigned 1 and rows where
`combined_sell` holds assigned -1 (the later sell write overwriting the buy
write).  A row hit by neither mask therefore keeps the last sub-strategy's
leftover signal rather than 0. -/
def composite_signal (cols : List (String × List ℤ)) (i : ℕ) : ℤ :=
  let s0 : ℤ :=
    match cols.getLast? with
    | none => 0
    | some p => signal_at p.2 i
  let s1 : ℤ := if combined_buy cols i then 1 else s0
  if combined_sell cols i then -1 else s1

/-- The final value of the `trigger_strategies` column at row `i`: the column
starts at the empty string, rows where `combined_buy` holds are assigned the
comma-joined list of all selected strategy names, and then the attribution
loop appends (comma-separated) the name of every sub-strategy whose own
signal is -1, on the rows whose composite signal is -1. -/
def trigger_strategies_at (cols : List (String × List ℤ)) (selected : List String)
    (i : ℕ) : String :=
  let t0 := if combined_buy cols i then String.intercalate ", " selected else ""
  if combined_sell cols i then
    cols.foldl
      (fun acc p =>
        if signal_at p.2 i == -1 then
          (if acc = "" then p.1 else acc ++ ", " ++ p.1)
        else acc)
      t0
  else t0

/-- The comma-separated join that the attribution loop of
`CombinedStrategy.generate_signals` builds: starting from the empty string,
append each name, prefixing it with a comma and a space when the accumulator
is already nonempty. -/
def comma_join (names : List String) : String :=
  names.foldl (fun acc n => if acc = "" then n else acc ++ ", " ++ n) ""

end CombinedStrategy

/-- Embedding of the `StrategyMetadata` class of `strategy_manager.py`.  A
parameter schema entry is embedded as its field name only; the claims do not
look inside schema values. -/
structure StrategyMetadata where
  name : String
  display_name : String
  description : String
  params_schema : List String
deriving DecidableEq

/-- A value passed as a keyword argument to `create_strategy`. -/
inductive ParamValue
  | num (q : ℚ)
  | str (s : String)
  | boolean (b : Bool)
deriving DecidableEq

/-- A registered strategy class as the registry sees it: the names of the
parameters accepted by its `__init__` signature. -/
structure StrategyClass where
  ctor_params : List String
deriving DecidableEq

/-- One value of the `global_strategy_registry` dict: the dict literal
written by the `register_strategy` decorator. -/
structure RegEntry where
  cls : StrategyClass
  metadata : StrategyMetadata
deriving DecidableEq

/-- The `global_strategy_registry` dict, embedded as an association list from
strategy name to entry. -/
abbrev Registry : Type := List (String × RegEntry)

/-- The `ValueError` raised by registry lookups with an unknown name:
the spec's `UnregisteredStrategy` error kind. -/
inductive StrategyError
  | unregistered (name : String)
deriving DecidableEq

/-- The result of `strategy_class(**filtered_kwargs)`: the class that was
instantiated together with the keyword arguments that reached it. -/
structure CreatedStrategy where
  cls : StrategyClass
  init_kwargs : List (String × ParamValue)
deriving DecidableEq

namespace StrategyManager

/-- Embedding of `StrategyManager.get_strategy(name)`: return the registered
class or raise `ValueError` when the name is not registered. -/
def get_strategy (reg : Registry) (name : String) : Except StrategyError StrategyClass :=
  match List.lookup name reg with
  | none => .error (.unregistered name)
  | some entry => .ok entry.cls

/-- Embedding of `StrategyManager.get_strategy_metadata(name)`: return the
registered metadata or raise `ValueError` when the name is not registered. -/
def get_strategy_metadata (reg : Registry) (name : String) :
    Except StrategyError StrategyMetadata :=
  match List.lookup name reg with
  | none => .error (.unregistered name)
  | some entry => .ok entry.metadata

/-- Embedding of `StrategyManager.create_strategy(name, **kwargs)`: look the
class up, keep only the keyword arguments whose key appears among the
constructor's parameter names, and instantiate the class with them. -/
def create_strategy (reg : Registry) (name : String)
    (kwargs : List (String × ParamValue)) : Except StrategyError CreatedStrategy := do
  let strategy_class ← get_strategy reg name
  let filtered_kwargs := kwargs.filter (fun kv => strategy_class.ctor_params.contains kv.1)
  .ok { cls := strategy_class, init_kwargs := filtered_kwargs }

end StrategyManager

/-- The list of equity values that the `BaseStrategy.backtest` loop appends
while folding over `bars` from state `st`: one entry per bar, computed from
the state entering that bar. -/
def equity_trace (cfg : BTConfig) : BTState → List Bar → List ℚ
  | _, [] => []
  | st, b :: bs =>
    BacktestBase.calculate_equity st.current_cash st.position b.close ::
      equity_trace cfg (BaseStrategy.step cfg st b) bs

/-! Concrete fixtures used by witnesses and counterexamples. -/

/-- A base run configuration: 1000 of initial cash, position ratio 1. -/
def cfg1 : BTConfig := { initial_cash := 1000, position_frac := 1 }

/-- A bar with a buy signal at close 9.9. -/
def bar_buy : Bar :=
  { date := 0, open_p := 0, high := 0, low := 0, close := 99/10, volume := 0, signal := 1 }

/-- A bar with a sell signal at a crashed close of 0.0001. -/
def bar_crash : Bar :=
  { date := 1, open_p := 0, high := 0, low := 0, close := 1/10000, volume := 0, signal := -1 }

/-- A stop-loss run configuration: stop at 4 percent, 3-day time stop with a
1 percent minimum profit. -/
def slcfg1 : SLConfig :=
  { initial_cash := 1000, position_frac := 1, stop_loss_pct := 4/100,
    days_threshold := 3, min_profit_pct := 1/100 }

/-- A base-engine state holding 100 shares bought at 10. -/
def bt_hold_state : BTState :=
  { current_cash := 100, position := 100, avg_cost := 10, trades := [],
    equity_curve := [], current_equity := 100 }

/-- A stop-loss state holding 100 shares bought at 10 on day 0. -/
def sl_hold_state : SLState :=
  { current_cash := 100, position := 100, avg_cost := 10, trades := [],
    equity_curve := [], current_equity := 100, buy_date := some 0, buy_price := 10,
    holding_days := 0 }

/-- A hold-signal bar whose close 9 is below the 9.6 fixed stop of
`sl_hold_state` under `slcfg1`. -/
def bar_drop : Bar :=
  { date := 5, open_p := 0, high := 0, low := 0, close := 9, volume := 0, signal := 0 }

/-- A flat hold-signal bar at close 10 (the buy price of `sl_hold_state`),
so that neither stop condition fires until the time stop becomes armed. -/
def bar_flat (d : ℕ) : Bar :=
  { date := d, open_p := 0, high := 0, low := 0, close := 10, volume := 0, signal := 0 }

/-- The buy trade that `BaseStrategy.step cfg1` commits from the initial
state on `bar_buy`. -/
def trade_buy_w : Trade :=
  { date := 0, price := 99/10, quantity := 100, ttype := "buy", cost := 25099/5000,
    stock_value := 990, total_asset := 4974901/5000, position_profit := 0 }

/-- The stop sell trade that `StopLossStrategy.step slcfg1` commits from
`sl_hold_state` on `bar_drop`. -/
def trade_sell_w : Trade :=
  { date := 5, price := 9, quantity := 100, ttype := "sell", cost := 2959/500,
    stock_value := 0, total_asset := 497041/500, position_profit := -100,
    sell_reason := some "固定止损" }

/-- Two saved signal columns for the composite witness: at row 1 the first
sub-strategy says sell and the second says hold. -/
def cols_w : List (String × List ℤ) := [("basic_kdj", [1, -1]), ("kdj_sma20", [1, 0])]

/-- Two saved signal columns exhibiting the leftover-buy behavior: at row 0
the first sub-strategy holds while the last one says buy, so neither the
unanimous-buy mask nor the sell mask covers the row. -/
def cols_ce : List (String × List ℤ) := [("basic_kdj", [0]), ("kdj_sma20", [1])]

/-- A registered class whose constructor accepts three parameter names. -/
def reg_w : Registry :=
  [("basic_kdj",
    { cls := { ctor_params := ["stock_code", "initial_cash", "n"] },
      metadata := { name := "basic_kdj", display_name := "KDJ策略",
                    description := "基础KDJ策略", params_schema := ["n"] } })]

/-- Keyword arguments with one key ("bogus") that no constructor accepts. -/
def kwargs_w : List (String × ParamValue) :=
  [("stock_code", .str "000001"), ("bogus", .num 1), ("n", .num 9)]

/-- A sub-strategy whose `calculate_indicators()` raises but whose
`generate_signals()` produces a signal column. -/
def failing_sub : SubStrategy :=
  { name := "basic_kdj", calc_indicators := .error (.exception "indicator failure"),
    gen_signals := .ok (some [1, 0]) }

/-- A sub-strategy that runs fine but leaves no `signal` column. -/
def none_sub : SubStrategy :=
  { name := "kdj_sma20", calc_indicators := .ok (), gen_signals := .ok none }

/-- A sub-strategy whose `generate_signals()` raises. -/
def err_sub : SubStrategy :=
  { name := "kdj_volume", calc_indicators := .ok (),
    gen_signals := .error (.valueError "请先加载数据") }

/-! Helper lemmas. -/

lemma process_signal_hold (cfg : BTConfig) (st : BTState) (idx : ℕ) (close : ℚ) :
    BaseStrategy.process_signal cfg st idx close 0 = st := by
  simp [BaseStrategy.process_signal]

lemma process_signal_equity_curve (cfg : BTConfig) (st : BTState) (idx : ℕ)
    (close : ℚ) (sig : ℤ) :
    (BaseStrategy.process_signal cfg st idx close sig).equity_curve = st.equity_curve := by
  unfold BaseStrategy.process_signal
  split_ifs <;> rfl

lemma base_trade_asset (cfg : BTConfig) (st : BTState) (idx : ℕ) (close : ℚ) (sig : ℤ)
    (t : Trade)
    (h : (BaseStrategy.process_signal cfg st idx close sig).trades = st.trades ++ [t]) :
    t.total_asset =
      (BaseStrategy.process_signal cfg st idx close sig).current_cash + t.stock_value := by
  unfold BaseStrategy.process_signal at h ⊢
  split_ifs at h ⊢ with h1 h2 h3 h4 h5
  · have h6 := List.append_cancel_left h
    simp only [List.cons.injEq, and_true] at h6
    subst h6
    simp
  · simp at h
  · simp at h
  · have h6 := List.append_cancel_left h
    simp only [List.cons.injEq, and_true] at h6
    subst h6
    simp
  · exact absurd h4.2 h5
  · simp at h

lemma sl_trade_asset (cfg : SLConfig) (st : SLState) (bar : Bar) (t : Trade)
    (h : (StopLossStrategy.handle_bar cfg st bar).trades = st.trades ++ [t]) :
    t.total_asset = (StopLossStrategy.handle_bar cfg st bar).current_cash + t.stock_value := by
  unfold StopLossStrategy.handle_bar at h ⊢
  split_ifs at h ⊢ with h1 h2 h3 h4 h5 h6
  · have h7 := List.append_cancel_left h
    simp only [List.cons.injEq, and_true] at h7
    subst h7
    simp
  · have h7 := List.append_cancel_left h
    simp only [List.cons.injEq, and_true] at h7
    subst h7
    simp
  · simp at h
  · have h7 := List.append_cancel_left h
    simp only [List.cons.injEq, and_true] at h7
    subst h7
    simp
  · simp at h
  · simp at h
  · simp at h

/-- C7: every trade record appended by one iteration of either simulation
loop (base engine or stop-loss variant) has `total_asset` equal exactly to
the cash balance immediately after the trade plus the recorded
`stock_value`. -/
theorem trade_total_asset_exact (cfg : BTConfig) (slcfg : SLConfig) (st : BTState)
    (sst : SLState) (bar sbar : Bar) (t u : Trade) :
    ((BaseStrategy.step cfg st bar).trades = st.trades ++ [t] →
      t.total_asset = (BaseStrategy.step cfg st bar).current_cash + t.stock_value) ∧
    ((StopLossStrategy.step slcfg sst sbar).trades = sst.trades ++ [u] →
      u.total_asset = (StopLossStrategy.step slcfg sst sbar).current_cash + u.stock_value) := by
  constructor
  · intro h
    exact base_trade_asset cfg (BaseStrategy.record_equity st bar.close) bar.date bar.close
      bar.signal t h
  · intro h
    exact sl_trade_asset slcfg (StopLossStrategy.record_equity sst sbar.close) sbar u h

/-- Witness for C7: the buy trade committed on `bar_buy` from the fresh base
state and the fixed-stop sell committed on `bar_drop` from `sl_hold_state`
both satisfy the exact total-asset identity. -/
theorem trade_total_asset_exact_witness :
    trade_buy_w.total_asset =
        (BaseStrategy.step cfg1 (BaseStrategy.initState cfg1) bar_buy).current_cash +
          trade_buy_w.stock_value ∧
    trade_sell_w.total_asset =
        (StopLossStrategy.step slcfg1 sl_hold_state bar_drop).current_cash +
          trade_sell_w.stock_value :=
  ⟨(trade_total_asset_exact cfg1 slcfg1 (BaseStrategy.initState cfg1) sl_hold_state bar_buy
      bar_drop trade_buy_w trade_sell_w).1
      (by norm_num [BaseStrategy.step, BaseStrategy.process_signal, BaseStrategy.initState,
        BaseStrategy.record_equity, BaseStrategy.calculate_average_cost,
        BaseStrategy.max_buy_amount, BaseStrategy.buy_amount_per_lot, BaseStrategy.max_buy_lots,
        BaseStrategy.buy_quantity, BaseStrategy.buy_total_cost, BaseStrategy.total_required,
        BacktestBase.calculate_trading_cost, BacktestBase.calculate_equity,
        pymax, pyInt, lot_size, cfg1, bar_buy, trade_buy_w]),
   (trade_total_asset_exact cfg1 slcfg1 (BaseStrategy.initState cfg1) sl_hold_state bar_buy
      bar_drop trade_buy_w trade_sell_w).2
      (by norm_num [StopLossStrategy.step, StopLossStrategy.handle_bar,
        StopLossStrategy.record_equity, BaseStrategy.sell_total_cost, BaseStrategy.net_revenue,
        BacktestBase.calculate_trading_cost, BacktestBase.calculate_equity,
        pymax, slcfg1, sl_hold_state, bar_drop, trade_sell_w])⟩

/-- C5: on a sell signal with a positive position the base engine liquidates
the entire position at the bar's close, appending a sell trade whose
`position_profit` is `(close - avg_cost) * quantity`, adding the net
proceeds to cash and clearing the position and average cost to zero; a sell
signal with no position, or a hold signal, changes no state. -/
theorem sell_branch_spec (cfg : BTConfig) (st : BTState) (idx : ℕ) (close : ℚ) :
    (0 < st.position →
      BaseStrategy.process_signal cfg st idx close (-1) =
        { st with
          trades := st.trades ++
            [{ date := idx, price := close, quantity := st.position, ttype := "sell",
               cost := BaseStrategy.sell_total_cost st.position close,
               stock_value := 0,
               total_asset := st.current_cash + BaseStrategy.net_revenue st.position close,
               position_profit := (close - st.avg_cost) * (st.position : ℚ) }],
          position := 0,
          current_cash := st.current_cash + BaseStrategy.net_revenue st.position close,
          avg_cost := 0 }) ∧
    (¬ 0 < st.position → BaseStrategy.process_signal cfg st idx close (-1) = st) ∧
    BaseStrategy.process_signal cfg st idx close 0 = st := by
  refine ⟨fun h => ?_, fun h => ?_, process_signal_hold cfg st idx close⟩
  · unfold BaseStrategy.process_signal
    rw [if_neg (by decide), if_pos ⟨rfl, h⟩, if_pos h]
  · unfold BaseStrategy.process_signal
    rw [if_neg (by decide), if_neg (fun hc => h hc.2)]

/-- Witness for C5: selling the 100-share holding of `bt_hold_state` at
close 9 produces exactly the described liquidation state. -/
theorem sell_branch_spec_witness :
    BaseStrategy.process_signal cfg1 bt_hold_state 7 9 (-1) =
      { bt_hold_state with
        trades := bt_hold_state.trades ++
          [{ date := 7, price := 9, quantity := bt_hold_state.position, ttype := "sell",
             cost := BaseStrategy.sell_total_cost bt_hold_state.position 9,
             stock_value := 0,
             total_asset := bt_hold_state.current_cash +
               BaseStrategy.net_revenue bt_hold_state.position 9,
             position_profit := (9 - bt_hold_state.avg_cost) * (bt_hold_state.position : ℚ) }],
        position := 0,
        current_cash := bt_hold_state.current_cash +
          BaseStrategy.net_revenue bt_hold_state.position 9,
        avg_cost := 0 } :=
  (sell_branch_spec cfg1 bt_hold_state 7 9).1 (by norm_num [bt_hold_state])

lemma step_equity_curve (cfg : BTConfig) (st : BTState) (bar : Bar) :
    (BaseStrategy.step cfg st bar).equity_curve =
      st.equity_curve ++
        [BacktestBase.calculate_equity st.current_cash st.position bar.close] := by
  unfold BaseStrategy.step
  rw [process_signal_equity_curve]
  rfl

lemma foldl_equity_curve (cfg : BTConfig) (bs : List Bar) : ∀ st : BTState,
    (bs.foldl (BaseStrategy.step cfg) st).equity_curve =
      st.equity_curve ++ equity_trace cfg st bs := by
  induction bs with
  | nil => intro st; simp [equity_trace]
  | cons b bs ih =>
    intro st
    rw [List.foldl_cons, ih, step_equity_curve]
    simp [equity_trace]

lemma equity_trace_length (cfg : BTConfig) (bs : List Bar) :
    ∀ st : BTState, (equity_trace cfg st bs).length = bs.length := by
  induction bs with
  | nil => intro st; rfl
  | cons b bs ih => intro st; simp [equity_trace, ih]

lemma equity_trace_getD (cfg : BTConfig) (bs : List Bar) :
    ∀ (st : BTState) (i : ℕ), i < bs.length →
      (equity_trace cfg st bs).getD i 0 =
        BacktestBase.calculate_equity
          ((bs.take i).foldl (BaseStrategy.step cfg) st).current_cash
          ((bs.take i).foldl (BaseStrategy.step cfg) st).position
          ((bs.getD i defaultBar).close) := by
  induction bs with
  | nil => intro st i h; simp at h
  | cons b bs ih =>
    intro st i h
    cases i with
    | zero => simp [equity_trace]
    | succ n =>
      simp only [equity_trace, List.getD_cons_succ, List.take_succ_cons, List.foldl_cons]
      exact ih (BaseStrategy.step cfg st b) n (by simpa using h)

/-- C2: the equity curve returned by `BaseStrategy.backtest` has exactly one
entry per bar in bar order, and the entry for bar `i` is the mark-to-market
equity of the state entering that bar (cash plus position times that bar's
close), recorded before the bar's own signal is acted on. -/
theorem equity_curve_per_bar (cfg : BTConfig) (bars : List Bar) :
    (BaseStrategy.backtest cfg bars).equity_curve.length = bars.length ∧
    ∀ i, i < bars.length →
      (BaseStrategy.backtest cfg bars).equity_curve.getD i 0 =
        BacktestBase.calculate_equity
          ((bars.take i).foldl (BaseStrategy.step cfg) (BaseStrategy.initState cfg)).current_cash
          ((bars.take i).foldl (BaseStrategy.step cfg) (BaseStrategy.initState cfg)).position
          ((bars.getD i defaultBar).close) := by
  have hcurve : (BaseStrategy.backtest cfg bars).equity_curve =
      equity_trace cfg (BaseStrategy.initState cfg) bars := by
    show (BaseStrategy.backtest_state cfg bars).equity_curve = _
    unfold BaseStrategy.backtest_state
    rw [foldl_equity_curve]
    simp [BaseStrategy.initState]
  constructor
  · rw [hcurve, equity_trace_length]
  · intro i hi
    rw [hcurve]
    exact equity_trace_getD cfg bars (BaseStrategy.initState cfg) i hi

/-- Witness for C2: on the concrete two-bar run, the curve has two entries
and entry 1 is the equity entering the second bar. -/
theorem equity_curve_per_bar_witness :
    (BaseStrategy.backtest cfg1 [bar_buy, bar_crash]).equity_curve.length = 2 ∧
    (BaseStrategy.backtest cfg1 [bar_buy, bar_crash]).equity_curve.getD 1 0 =
      BacktestBase.calculate_equity
        (([bar_buy, bar_crash].take 1).foldl (BaseStrategy.step cfg1)
          (BaseStrategy.initState cfg1)).current_cash
        (([bar_buy, bar_crash].take 1).foldl (BaseStrategy.step cfg1)
          (BaseStrategy.initState cfg1)).position
        (([bar_buy, bar_crash].getD 1 defaultBar).close) :=
  ⟨(equity_curve_per_bar cfg1 [bar_buy, bar_crash]).1,
   (equity_curve_per_bar cfg1 [bar_buy, bar_crash]).2 1 (by decide)⟩

lemma pyInt_eq_floor (q : ℚ) (h : 0 ≤ q) : pyInt q = ⌊q⌋ := by
  simp [pyInt, h]

/-- C4: on a buy signal the engine computes `max_buy_lots` as the floor of
`cash * f / (close * 100)`; when the lot count is positive and the total
required (shares plus cost) fits in cash it commits the buy exactly as
described (weighted-average cost update, position increment, cash decrement,
appended buy trade), otherwise it leaves the state unchanged; the commit is
not gated on a zero position, so a buy while holding pyramids the
position. -/
theorem buy_branch_spec (cfg : BTConfig) (st : BTState) (idx : ℕ) (close : ℚ)
    (hcash : 0 ≤ st.current_cash) (hfrac : 0 ≤ cfg.position_frac) (hclose : 0 < close) :
    BaseStrategy.max_buy_lots cfg.position_frac st.current_cash close =
      ⌊st.current_cash * cfg.position_frac / (close * 100)⌋ ∧
    BaseStrategy.buy_quantity cfg.position_frac st.current_cash close =
      BaseStrategy.max_buy_lots cfg.position_frac st.current_cash close * 100 ∧
    (0 < BaseStrategy.max_buy_lots cfg.position_frac st.current_cash close →
      BaseStrategy.total_required cfg.position_frac st.current_cash close ≤ st.current_cash →
      BaseStrategy.process_signal cfg st idx close 1 =
        { st with
          trades := st.trades ++
            [{ date := idx, price := close,
               quantity := BaseStrategy.buy_quantity cfg.position_frac st.current_cash close,
               ttype := "buy",
               cost := BaseStrategy.buy_total_cost cfg.position_frac st.current_cash close,
               stock_value :=
                 ((st.position +
                   BaseStrategy.buy_quantity cfg.position_frac st.current_cash close : ℤ) : ℚ) *
                   close,
               total_asset := st.current_cash -
                 BaseStrategy.total_required cfg.position_frac st.current_cash close +
                 ((st.position +
                   BaseStrategy.buy_quantity cfg.position_frac st.current_cash close : ℤ) : ℚ) *
                   close,
               position_profit :=
                 (close - BaseStrategy.calculate_average_cost st.position st.avg_cost
                     (BaseStrategy.buy_quantity cfg.position_frac st.current_cash close) close) *
                   ((st.position +
                     BaseStrategy.buy_quantity cfg.position_frac st.current_cash close : ℤ) :
                       ℚ) }],
          position := st.position + BaseStrategy.buy_quantity cfg.position_frac
            st.current_cash close,
          current_cash := st.current_cash -
            BaseStrategy.total_required cfg.position_frac st.current_cash close,
          avg_cost := BaseStrategy.calculate_average_cost st.position st.avg_cost
            (BaseStrategy.buy_quantity cfg.position_frac st.current_cash close) close }) ∧
    (¬ 0 < BaseStrategy.max_buy_lots cfg.position_frac st.current_cash close ∨
      ¬ BaseStrategy.total_required cfg.position_frac st.current_cash close ≤ st.current_cash →
      BaseStrategy.process_signal cfg st idx close 1 = st) ∧
    (0 < st.position →
      0 < BaseStrategy.max_buy_lots cfg.position_frac st.current_cash close →
      BaseStrategy.total_required cfg.position_frac st.current_cash close ≤ st.current_cash →
      st.position < (BaseStrategy.process_signal cfg st idx close 1).position) := by
  have hlot : ((lot_size : ℤ) : ℚ) = 100 := by norm_num [lot_size]
  have hden : (0 : ℚ) < BaseStrategy.buy_amount_per_lot close := by
    rw [BaseStrategy.buy_amount_per_lot, hlot]
    positivity
  have harg : 0 ≤ BaseStrategy.max_buy_amount cfg.position_frac st.current_cash /
      BaseStrategy.buy_amount_per_lot close := by
    apply div_nonneg _ hden.le
    rw [BaseStrategy.max_buy_amount]
    exact mul_nonneg hcash hfrac
  have hfloor : BaseStrategy.max_buy_lots cfg.position_frac st.current_cash close =
      ⌊st.current_cash * cfg.position_frac / (close * 100)⌋ := by
    rw [BaseStrategy.max_buy_lots, pyInt_eq_floor _ harg,
      BaseStrategy.max_buy_amount, BaseStrategy.buy_amount_per_lot, hlot]
  refine ⟨hfloor, ?_, fun hL hreq => ?_, fun hfail => ?_, fun hpos hL hreq => ?_⟩
  · rw [BaseStrategy.buy_quantity, lot_size]
  · unfold BaseStrategy.process_signal
    rw [if_pos rfl, if_pos hL, if_pos hreq]
  · unfold BaseStrategy.process_signal
    rw [if_pos rfl]
    rcases hfail with hL | hreq
    · rw [if_neg hL]
    · by_cases hL : 0 < BaseStrategy.max_buy_lots cfg.position_frac st.current_cash close
      · rw [if_pos hL, if_neg hreq]
      · rw [if_neg hL]
  · unfold BaseStrategy.process_signal
    rw [if_pos rfl, if_pos hL, if_pos hreq]
    have hq : 0 < BaseStrategy.buy_quantity cfg.position_frac st.current_cash close := by
      rw [BaseStrategy.buy_quantity]
      exact mul_pos hL (by norm_num [lot_size])
    simpa using lt_add_of_pos_right st.position hq

/-- Witness for C4: with 1000 cash, full position ratio and close 9.9 the
lot count is the floor value 1 and the commit path applies. -/
theorem buy_branch_spec_witness :
    BaseStrategy.max_buy_lots cfg1.position_frac (BaseStrategy.initState cfg1).current_cash
        (99/10) =
      ⌊(BaseStrategy.initState cfg1).current_cash * cfg1.position_frac / ((99/10) * 100)⌋ :=
  (buy_branch_spec cfg1 (BaseStrategy.initState cfg1) 0 (99/10)
    (by norm_num [BaseStrategy.initState, cfg1]) (by norm_num [cfg1]) (by norm_num)).1

/-- Counterexample for C1: on the two-bar run that buys 100 shares at 9.9
and then receives a sell signal at close 0.0001, both trades commit, yet the
cash after the committed sell is negative (the minimum commission of 5
exceeds the gross proceeds of 0.01), refuting that cash is nonnegative after
every committed trade. -/
theorem cash_nonneg_counterexample :
    (BaseStrategy.backtest_state cfg1 [bar_buy, bar_crash]).trades.map Trade.ttype
        = ["buy", "sell"] ∧
    (BaseStrategy.backtest_state cfg1 [bar_buy, bar_crash]).current_cash < 0 := by
  norm_num [BaseStrategy.backtest_state, BaseStrategy.step, BaseStrategy.process_signal,
    BaseStrategy.initState, BaseStrategy.record_equity, BaseStrategy.calculate_average_cost,
    BaseStrategy.max_buy_amount, BaseStrategy.buy_amount_per_lot, BaseStrategy.max_buy_lots,
    BaseStrategy.buy_quantity, BaseStrategy.buy_total_cost, BaseStrategy.total_required,
    BaseStrategy.sell_total_cost, BaseStrategy.net_revenue,
    BacktestBase.calculate_trading_cost, BacktestBase.calculate_equity,
    pymax, pyInt, lot_size, List.foldl, cfg1, bar_buy, bar_crash]

/-- C1 (amended): after every committed buy the cash balance is nonnegative
(the affordability guard `total_required <= current_cash` guarantees it);
after a committed sell the cash equals the previous cash plus the net
proceeds `quantity * close - cost`, and it is nonnegative provided the cash
was nonnegative before and the sell's trading cost does not exceed its gross
proceeds — without that proviso a committed sell can leave the cash
negative. -/
theorem cash_after_committed_trade (cfg : BTConfig) (st : BTState) (idx : ℕ) (close : ℚ) :
    ((BaseStrategy.process_signal cfg st idx close 1).trades ≠ st.trades →
      0 ≤ (BaseStrategy.process_signal cfg st idx close 1).current_cash) ∧
    ((BaseStrategy.process_signal cfg st idx close (-1)).trades ≠ st.trades →
      (BaseStrategy.process_signal cfg st idx close (-1)).current_cash =
        st.current_cash + BaseStrategy.net_revenue st.position close) ∧
    ((BaseStrategy.process_signal cfg st idx close (-1)).trades ≠ st.trades →
      0 ≤ st.current_cash →
      BaseStrategy.sell_total_cost st.position close ≤ (st.position : ℚ) * close →
      0 ≤ (BaseStrategy.process_signal cfg st idx close (-1)).current_cash) := by
  have hsell : (BaseStrategy.process_signal cfg st idx close (-1)).trades ≠ st.trades →
      (BaseStrategy.process_signal cfg st idx close (-1)).current_cash =
        st.current_cash + BaseStrategy.net_revenue st.position close := by
    intro hne
    unfold BaseStrategy.process_signal at hne ⊢
    rw [if_neg (by decide)] at hne ⊢
    by_cases hp : (-1 : ℤ) = -1 ∧ st.position > 0
    · rw [if_pos hp]
    · rw [if_neg hp] at hne
      exact absurd rfl hne
  refine ⟨?_, hsell, ?_⟩
  · intro hne
    unfold BaseStrategy.process_signal at hne ⊢
    rw [if_pos rfl] at hne ⊢
    by_cases hL : BaseStrategy.max_buy_lots cfg.position_frac st.current_cash close > 0
    · rw [if_pos hL] at hne ⊢
      by_cases hreq : BaseStrategy.total_required cfg.position_frac st.current_cash close ≤
          st.current_cash
      · rw [if_pos hreq]
        exact sub_nonneg.mpr hreq
      · rw [if_neg hreq] at hne
        exact absurd rfl hne
    · rw [if_neg hL] at hne
      exact absurd rfl hne
  · intro hne hcash hcost
    rw [hsell hne, BaseStrategy.net_revenue]
    exact add_nonneg hcash (sub_nonneg.mpr hcost)

/-- Witness for C1 (amended): a committed buy from the fresh state leaves
nonnegative cash, and the committed sell of `bt_hold_state` at close 9
(whose cost 5.918 is below the 900 gross proceeds) leaves nonnegative
cash. -/
theorem cash_after_committed_trade_witness :
    0 ≤ (BaseStrategy.process_signal cfg1 (BaseStrategy.initState cfg1) 0 (99/10)
        1).current_cash ∧
    0 ≤ (BaseStrategy.process_signal cfg1 bt_hold_state 7 9 (-1)).current_cash :=
  ⟨(cash_after_committed_trade cfg1 (BaseStrategy.initState cfg1) 0 (99/10)).1
      (by norm_num [BaseStrategy.process_signal, BaseStrategy.initState,
        BaseStrategy.max_buy_amount, BaseStrategy.buy_amount_per_lot, BaseStrategy.max_buy_lots,
        BaseStrategy.buy_quantity, BaseStrategy.buy_total_cost, BaseStrategy.total_required,
        BacktestBase.calculate_trading_cost, pymax, pyInt, lot_size, cfg1]),
   (cash_after_committed_trade cfg1 bt_hold_state 7 9).2.2
      (by norm_num [BaseStrategy.process_signal, bt_hold_state, BaseStrategy.sell_total_cost,
        BaseStrategy.net_revenue, BacktestBase.calculate_trading_cost, pymax])
      (by norm_num [bt_hold_state])
      (by norm_num [bt_hold_state, BaseStrategy.sell_total_cost,
        BacktestBase.calculate_trading_cost, pymax])⟩

/-- C6: in the stop-loss variant, while a position is held the two exit
conditions (fixed stop and time stop, the latter evaluated with the
already-incremented holding-day count) are checked on every bar before any
entry signal is considered: if either holds the whole position is sold that
bar with a `sell_reason` tag distinguishing the fixed stop from the time
stop, and if neither holds nothing is traded on that bar — in particular no
buy is ever executed while holding, whatever the bar's signal. -/
theorem stop_loss_exit_spec (cfg : SLConfig) (st : SLState) (bar : Bar)
    (hpos : 0 < st.position) :
    (StopLossStrategy.stop_loss_condition cfg st.buy_price bar.close ∨
        StopLossStrategy.time_stop_condition cfg (st.holding_days + 1) st.buy_price bar.close →
      (StopLossStrategy.step cfg st bar).position = 0 ∧
      ∃ t, (StopLossStrategy.step cfg st bar).trades = st.trades ++ [t] ∧
        t.ttype = "sell" ∧ t.quantity = st.position ∧
        t.sell_reason = some (if StopLossStrategy.stop_loss_condition cfg st.buy_price bar.close
          then "固定止损" else "时间止损")) ∧
    (¬ StopLossStrategy.stop_loss_condition cfg st.buy_price bar.close ∧
        ¬ StopLossStrategy.time_stop_condition cfg (st.holding_days + 1) st.buy_price
            bar.close →
      (StopLossStrategy.step cfg st bar).trades = st.trades ∧
      (StopLossStrategy.step cfg st bar).position = st.position ∧
      (StopLossStrategy.step cfg st bar).current_cash = st.current_cash ∧
      (StopLossStrategy.step cfg st bar).holding_days = st.holding_days + 1) := by
  constructor
  · intro hexit
    simp only [StopLossStrategy.step, StopLossStrategy.record_equity,
      StopLossStrategy.handle_bar]
    rw [if_pos hpos, if_pos hexit]
    exact ⟨rfl, _, rfl, rfl, rfl, rfl⟩
  · intro hno
    simp only [StopLossStrategy.step, StopLossStrategy.record_equity,
      StopLossStrategy.handle_bar]
    rw [if_pos hpos, if_neg (fun hc => hc.elim hno.1 hno.2)]
    exact ⟨rfl, rfl, rfl, rfl⟩

/-- Witness for C6: from `sl_hold_state` (100 shares bought at 10) the bar
`bar_drop` with close 9 triggers the fixed stop and liquidates the
position. -/
theorem stop_loss_exit_spec_witness :
    (StopLossStrategy.step slcfg1 sl_hold_state bar_drop).position = 0 :=
  ((stop_loss_exit_spec slcfg1 sl_hold_state bar_drop (by norm_num [sl_hold_state])).1
    (Or.inl (by norm_num [StopLossStrategy.stop_loss_condition, slcfg1, sl_hold_state,
      bar_drop]))).1

lemma step_of_held (cfg : SLConfig) (st : SLState) (bar : Bar)
    (h : holds_without_exit cfg st bar) :
    StopLossStrategy.step cfg st bar =
      { st with
        holding_days := st.holding_days + 1,
        current_equity := BacktestBase.calculate_equity st.current_cash st.position bar.close,
        equity_curve := st.equity_curve ++
          [BacktestBase.calculate_equity st.current_cash st.position bar.close] } := by
  obtain ⟨h1, h2, h3⟩ := h
  simp only [StopLossStrategy.step, StopLossStrategy.record_equity,
    StopLossStrategy.handle_bar]
  rw [if_pos h1, if_neg (fun hc => hc.elim h2 h3)]

lemma all_held_foldl (cfg : SLConfig) (bs : List Bar) : ∀ st : SLState,
    all_held cfg st bs →
    (bs.foldl (StopLossStrategy.step cfg) st).holding_days = st.holding_days + bs.length ∧
    (bs.foldl (StopLossStrategy.step cfg) st).position = st.position ∧
    (bs.foldl (StopLossStrategy.step cfg) st).buy_price = st.buy_price ∧
    (bs.foldl (StopLossStrategy.step cfg) st).trades = st.trades := by
  induction bs with
  | nil => intro st _; exact ⟨rfl, rfl, rfl, rfl⟩
  | cons b bs ih =>
    intro st h
    obtain ⟨h1, h2⟩ := h
    have ih2 := ih (StopLossStrategy.step cfg st b) h2
    rw [step_of_held cfg st b h1] at ih2
    rw [List.foldl_cons, step_of_held cfg st b h1]
    refine ⟨?_, ih2.2.1, ih2.2.2.1, ih2.2.2.2⟩
    rw [ih2.1]
    simp
    omega

lemma step_time_stop_fires (cfg : SLConfig) (st : SLState) (bar : Bar)
    (hpos : 0 < st.position)
    (hns : ¬ StopLossStrategy.stop_loss_condition cfg st.buy_price bar.close)
    (hts : StopLossStrategy.time_stop_condition cfg (st.holding_days + 1) st.buy_price
      bar.close) :
    ∃ t, (StopLossStrategy.step cfg st bar).trades = st.trades ++ [t] ∧
      t.sell_reason = some "时间止损" := by
  simp only [StopLossStrategy.step, StopLossStrategy.record_equity,
    StopLossStrategy.handle_bar]
  rw [if_pos hpos, if_pos (Or.inr hts), if_neg hns]
  exact ⟨_, rfl, rfl⟩

/-- C10: a committed buy in the stop-loss variant resets `holding_days` to
zero; on a bar entered with a held position the count is incremented before
the exit check, so a time-stop sell on that bar implies
`holding_days + 1 >= days_threshold` (and that the fixed stop did not fire);
over a streak of held bars without exits the count equals the streak length;
hence the time stop can fire on the `days_threshold`-th bar after the buy
bar (`days_threshold <= streak + 1`) and never on the buy bar itself, where
the position is entered with zero shares and only a buy can be appended. -/
theorem holding_days_spec (cfg : SLConfig) (st : SLState) (bar : Bar) (bs : List Bar) :
    (¬ 0 < st.position → (StopLossStrategy.step cfg st bar).trades ≠ st.trades →
      (StopLossStrategy.step cfg st bar).holding_days = 0 ∧
      ∃ t, (StopLossStrategy.step cfg st bar).trades = st.trades ++ [t] ∧
        t.ttype = "buy") ∧
    (0 < st.position → ∀ t,
      (StopLossStrategy.step cfg st bar).trades = st.trades ++ [t] →
      t.sell_reason = some "时间止损" →
      ¬ StopLossStrategy.stop_loss_condition cfg st.buy_price bar.close ∧
      st.holding_days + 1 ≥ cfg.days_threshold ∧
      (bar.close - st.buy_price) / st.buy_price < cfg.min_profit_pct) ∧
    (all_held cfg st bs →
      (bs.foldl (StopLossStrategy.step cfg) st).holding_days =
        st.holding_days + bs.length ∧
      (bs.foldl (StopLossStrategy.step cfg) st).position = st.position) ∧
    (st.holding_days = 0 → 0 < st.position → all_held cfg st bs →
      cfg.days_threshold ≤ bs.length + 1 →
      ¬ StopLossStrategy.stop_loss_condition cfg st.buy_price bar.close →
      (bar.close - st.buy_price) / st.buy_price < cfg.min_profit_pct →
      ∃ t, (StopLossStrategy.step cfg (bs.foldl (StopLossStrategy.step cfg) st) bar).trades =
        (bs.foldl (StopLossStrategy.step cfg) st).trades ++ [t] ∧
        t.sell_reason = some "时间止损") := by
  refine ⟨fun hnpos hne => ?_, fun hpos t ht hr => ?_, fun hheld => ?_,
    fun h0 hpos hheld hθ hns hpct => ?_⟩
  · simp only [StopLossStrategy.step, StopLossStrategy.record_equity,
      StopLossStrategy.handle_bar] at hne ⊢
    rw [if_neg hnpos] at hne ⊢
    by_cases hs : bar.signal = 1
    · rw [if_pos hs] at hne ⊢
      by_cases hL : BaseStrategy.max_buy_lots cfg.position_frac st.current_cash bar.close > 0
      · rw [if_pos hL] at hne ⊢
        by_cases hreq : BaseStrategy.total_required cfg.position_frac st.current_cash
            bar.close ≤ st.current_cash
        · rw [if_pos hreq]
          exact ⟨rfl, _, rfl, rfl⟩
        · rw [if_neg hreq] at hne
          exact absurd rfl hne
      · rw [if_neg hL] at hne
        exact absurd rfl hne
    · rw [if_neg hs] at hne
      exact absurd rfl hne
  · simp only [StopLossStrategy.step, StopLossStrategy.record_equity,
      StopLossStrategy.handle_bar] at ht
    rw [if_pos hpos] at ht
    by_cases hexit : StopLossStrategy.stop_loss_condition cfg st.buy_price bar.close ∨
        StopLossStrategy.time_stop_condition cfg (st.holding_days + 1) st.buy_price bar.close
    · rw [if_pos hexit] at ht
      have h6 := List.append_cancel_left ht
      simp only [List.cons.injEq, and_true] at h6
      subst h6
      simp only [Option.some.injEq] at hr
      by_cases hsc : StopLossStrategy.stop_loss_condition cfg st.buy_price bar.close
      · rw [if_pos hsc] at hr
        exact absurd hr (by decide)
      · have hts := hexit.resolve_left hsc
        exact ⟨hsc, hts.1, hts.2⟩
    · rw [if_neg hexit] at ht
      simp at ht
  · have h := all_held_foldl cfg bs st hheld
    exact ⟨h.1, h.2.1⟩
  · have h := all_held_foldl cfg bs st hheld
    refine step_time_stop_fires cfg _ bar ?_ ?_ ?_
    · rw [h.2.1]
      exact hpos
    · rw [h.2.2.1]
      exact hns
    · rw [h.1, h.2.2.1, h0]
      exact ⟨by omega, hpct⟩

/-- Witness for C10: after the buy state `sl_hold_state` (threshold 3), two
flat held bars arm the counter and the time stop fires on the third bar
after the buy. -/
theorem holding_days_spec_witness :
    ∃ t, (StopLossStrategy.step slcfg1
        ([bar_flat 1, bar_flat 2].foldl (StopLossStrategy.step slcfg1) sl_hold_state)
        (bar_flat 3)).trades =
      ([bar_flat 1, bar_flat 2].foldl (StopLossStrategy.step slcfg1) sl_hold_state).trades ++
        [t] ∧
      t.sell_reason = some "时间止损" :=
  (holding_days_spec slcfg1 sl_hold_state (bar_flat 3) [bar_flat 1, bar_flat 2]).2.2.2
    (by norm_num [sl_hold_state])
    (by norm_num [sl_hold_state])
    (by norm_num [all_held, holds_without_exit, StopLossStrategy.step,
      StopLossStrategy.record_equity, StopLossStrategy.handle_bar,
      StopLossStrategy.stop_loss_condition, StopLossStrategy.time_stop_condition,
      BacktestBase.calculate_equity, slcfg1, sl_hold_state, bar_flat])
    (by norm_num [slcfg1])
    (by norm_num [StopLossStrategy.stop_loss_condition, slcfg1, sl_hold_state, bar_flat])
    (by norm_num [sl_hold_state, bar_flat, slcfg1])

lemma not_buy_of_sell (cols : List (String × List ℤ)) (i : ℕ)
    (h : CombinedStrategy.combined_sell cols i = true) :
    CombinedStrategy.combined_buy cols i = false := by
  obtain ⟨p, hp, hv⟩ := List.any_eq_true.mp h
  rw [beq_iff_eq] at hv
  by_contra hb
  rw [Bool.not_eq_false, CombinedStrategy.combined_buy, Bool.and_eq_true,
    List.all_eq_true] at hb
  have := hb.2 p hp
  rw [beq_iff_eq, hv] at this
  exact absurd this (by decide)

lemma foldl_attribution (f : String × List ℤ → Bool) (l : List (String × List ℤ)) :
    ∀ acc : String,
    l.foldl (fun a p => if f p then (if a = "" then p.1 else a ++ ", " ++ p.1) else a) acc =
      ((l.filter f).map Prod.fst).foldl
        (fun a n => if a = "" then n else a ++ ", " ++ n) acc := by
  induction l with
  | nil => intro acc; rfl
  | cons p l ih =>
    intro acc
    rw [List.foldl_cons, List.filter_cons]
    by_cases hf : f p = true
    · rw [if_pos hf, if_pos hf, List.map_cons, List.foldl_cons]
      exact ih _
    · rw [if_neg hf, if_neg hf]
      exact ih acc

/-- Counterexample for C3: the sub-strategies share the composite's
DataFrame, so a row covered by neither the unanimous-buy mask nor the sell
mask keeps the last sub-strategy's leftover signal.  On row 0 of `cols_ce`
the first sub-strategy holds (0) and the last one buys (1): the composite
signal is Buy even though not every sub-strategy's individual signal is
Buy, refuting that composite Buy requires unanimity. -/
theorem composite_buy_not_unanimous :
    CombinedStrategy.composite_signal cols_ce 0 = 1 ∧
    ∃ p ∈ cols_ce, CombinedStrategy.signal_at p.2 0 ≠ 1 := by
  constructor
  · simp [cols_ce, CombinedStrategy.composite_signal, CombinedStrategy.combined_buy,
      CombinedStrategy.combined_sell, CombinedStrategy.signal_at, List.getLast?]
  · exact ⟨("basic_kdj", [0]), by simp [cols_ce], by simp [CombinedStrategy.signal_at]⟩

/-- C3 (amended): one Sell in any saved column makes the composite Sell;
when the unanimous-Buy mask and the some-Sell mask both hold the later Sell
write wins; a unanimous Buy without any Sell yields Buy; a row hit by
neither mask keeps the leftover signal of the last sub-strategy to run
(through the shared DataFrame), so the composite can read Buy without
unanimity when the last sub-strategy's leftover is a Buy — a composite Buy
guarantees only that no column reads Sell and that either the Buy mask held
or the last column reads Buy; on a Sell bar the attribution string is
exactly the comma-join of the names of the sub-strategies whose own column
reads Sell. -/
theorem composite_signal_fusion (cols : List (String × List ℤ)) (selected : List String)
    (i : ℕ) :
    ((∃ p ∈ cols, CombinedStrategy.signal_at p.2 i = -1) →
      CombinedStrategy.composite_signal cols i = -1) ∧
    (CombinedStrategy.combined_buy cols i = true →
      CombinedStrategy.combined_sell cols i = true →
      CombinedStrategy.composite_signal cols i = -1) ∧
    (CombinedStrategy.combined_buy cols i = true →
      CombinedStrategy.combined_sell cols i = false →
      CombinedStrategy.composite_signal cols i = 1) ∧
    (CombinedStrategy.combined_buy cols i = false →
      CombinedStrategy.combined_sell cols i = false →
      ∀ p, cols.getLast? = some p →
        CombinedStrategy.composite_signal cols i = CombinedStrategy.signal_at p.2 i) ∧
    (CombinedStrategy.composite_signal cols i = 1 →
      (∀ p ∈ cols, CombinedStrategy.signal_at p.2 i ≠ -1) ∧
      (CombinedStrategy.combined_buy cols i = true ∨
        ∃ p, cols.getLast? = some p ∧ CombinedStrategy.signal_at p.2 i = 1)) ∧
    (CombinedStrategy.combined_sell cols i = true →
      CombinedStrategy.trigger_strategies_at cols selected i =
        CombinedStrategy.comma_join
          ((cols.filter (fun p => CombinedStrategy.signal_at p.2 i == -1)).map Prod.fst)) := by
  refine ⟨fun h => ?_, fun hb hs => ?_, fun hb hs => ?_, fun hb hs p hp => ?_,
    fun h => ?_, fun hs => ?_⟩
  · obtain ⟨p, hp, hv⟩ := h
    have hs : CombinedStrategy.combined_sell cols i = true :=
      List.any_eq_true.mpr ⟨p, hp, beq_iff_eq.mpr hv⟩
    rw [CombinedStrategy.composite_signal, if_pos hs]
  · rw [CombinedStrategy.composite_signal, if_pos hs]
  · rw [CombinedStrategy.composite_signal, if_neg (by simp [hs]), if_pos hb]
  · rw [CombinedStrategy.composite_signal, if_neg (by simp [hs]), if_neg (by simp [hb]), hp]
  · have hs : CombinedStrategy.combined_sell cols i = false := by
      by_contra hc
      rw [Bool.not_eq_false] at hc
      rw [CombinedStrategy.composite_signal, if_pos hc] at h
      exact absurd h (by decide)
    refine ⟨fun p hp hv => ?_, ?_⟩
    · have : CombinedStrategy.combined_sell cols i = true :=
        List.any_eq_true.mpr ⟨p, hp, beq_iff_eq.mpr hv⟩
      rw [hs] at this
      exact absurd this (by decide)
    · rw [CombinedStrategy.composite_signal, if_neg (by simp [hs])] at h
      by_cases hb : CombinedStrategy.combined_buy cols i
      · exact Or.inl hb
      · rw [if_neg hb] at h
        refine Or.inr ?_
        cases hlast : cols.getLast? with
        | none =>
          rw [hlast] at h
          simp at h
        | some p =>
          rw [hlast] at h
          exact ⟨p, rfl, h⟩
  · have hb := not_buy_of_sell cols i hs
    rw [CombinedStrategy.trigger_strategies_at, hb, if_pos hs, if_neg (by simp),
      CombinedStrategy.comma_join, foldl_attribution]

/-- Witness for C3 (amended): on row 1 of `cols_w` (first column sells,
second holds) the composite resolves to Sell and the attribution is exactly
the selling sub-strategy; and on row 0 (both columns buy) the unanimous buy
yields Buy. -/
theorem composite_signal_fusion_witness :
    CombinedStrategy.composite_signal cols_w 1 = -1 ∧
    CombinedStrategy.composite_signal cols_w 0 = 1 ∧
    CombinedStrategy.trigger_strategies_at cols_w ["basic_kdj", "kdj_sma20"] 1 =
      CombinedStrategy.comma_join
        ((cols_w.filter (fun p => CombinedStrategy.signal_at p.2 1 == -1)).map Prod.fst) :=
  ⟨(composite_signal_fusion cols_w ["basic_kdj", "kdj_sma20"] 1).1
      ⟨("basic_kdj", [1, -1]), by simp [cols_w], by simp [CombinedStrategy.signal_at]⟩,
   (composite_signal_fusion cols_w ["basic_kdj", "kdj_sma20"] 0).2.2.1
      (by simp [CombinedStrategy.combined_buy, CombinedStrategy.signal_at, cols_w])
      (by simp [CombinedStrategy.combined_sell, CombinedStrategy.signal_at, cols_w]),
   (composite_signal_fusion cols_w ["basic_kdj", "kdj_sma20"] 1).2.2.2.2.2
      (by simp [CombinedStrategy.combined_sell, CombinedStrategy.signal_at, cols_w])⟩

/-- C8: creating a strategy (and looking up its metadata) fails with the
UnregisteredStrategy error kind exactly when the identifier is not in the
registry; with a registered identifier, creation succeeds and passes to the
constructor precisely the supplied keys that appear among the constructor's
parameter names, silently dropping the others. -/
theorem registry_create_spec (reg : Registry) (name : String)
    (kwargs : List (String × ParamValue)) :
    (StrategyManager.create_strategy reg name kwargs =
        .error (.unregistered name) ↔ List.lookup name reg = none) ∧
    (StrategyManager.get_strategy_metadata reg name =
        .error (.unregistered name) ↔ List.lookup name reg = none) ∧
    (∀ entry, List.lookup name reg = some entry →
      StrategyManager.create_strategy reg name kwargs =
        .ok { cls := entry.cls,
              init_kwargs :=
                kwargs.filter (fun kv => entry.cls.ctor_params.contains kv.1) }) ∧
    (∀ entry kv, List.lookup name reg = some entry →
      (kv ∈ kwargs.filter (fun kv => entry.cls.ctor_params.contains kv.1) ↔
        kv ∈ kwargs ∧ entry.cls.ctor_params.contains kv.1 = true)) := by
  refine ⟨?_, ?_, fun entry hentry => ?_, fun entry kv hentry => ?_⟩
  · cases hcase : List.lookup name reg <;>
      simp [StrategyManager.create_strategy, StrategyManager.get_strategy, hcase,
        Bind.bind, Except.bind]
  · cases hcase : List.lookup name reg <;>
      simp [StrategyManager.get_strategy_metadata, hcase]
  · simp [StrategyManager.create_strategy, StrategyManager.get_strategy, hentry,
      Bind.bind, Except.bind]
  · exact List.mem_filter

/-- Witness for C8: in the one-entry registry `reg_w`, creation with an
unknown identifier fails with the unregistered error, and creation with the
registered identifier keeps exactly the accepted keys of `kwargs_w`. -/
theorem registry_create_spec_witness :
    StrategyManager.create_strategy reg_w "unknown_id" kwargs_w =
      .error (.unregistered "unknown_id") ∧
    StrategyManager.create_strategy reg_w "basic_kdj" kwargs_w =
      .ok { cls := { ctor_params := ["stock_code", "initial_cash", "n"] },
            init_kwargs := [("stock_code", .str "000001"), ("n", .num 9)] } := by
  constructor
  · exact (registry_create_spec reg_w "unknown_id" kwargs_w).1.mpr (by simp [reg_w])
  · have h := (registry_create_spec reg_w "basic_kdj" kwargs_w).2.2.1
      { cls := { ctor_params := ["stock_code", "initial_cash", "n"] },
        metadata := { name := "basic_kdj", display_name := "KDJ策略",
                      description := "基础KDJ策略", params_schema := ["n"] } }
      (by simp [reg_w])
    rw [h]
    simp [kwargs_w]

/-- Counterexample for C9: a sub-strategy whose `calculate_indicators()`
raises does not abort the composite's indicator pass — the exception is
swallowed by the `try/except: pass` and `calculate_indicators` still
succeeds, so the failure does not propagate to the caller. -/
theorem indicators_failure_recovered :
    failing_sub.calc_indicators = .error (.exception "indicator failure") ∧
    CombinedStrategy.calculate_indicators [failing_sub] = .ok () :=
  ⟨rfl, rfl⟩

/-- C9 (amended): the composite's indicator pass never propagates a
sub-strategy failure (each `calculate_indicators()` call is wrapped in
`try/except: pass`); in the signal pass a sub-strategy whose
`generate_signals()` raises does propagate and aborts, a sub-strategy that
produced no signal column is silently skipped (abstains), and a sub-strategy
that produced a column contributes it. -/
theorem error_propagation_spec :
    (∀ subs : List SubStrategy, CombinedStrategy.calculate_indicators subs = .ok ()) ∧
    (∀ (s : SubStrategy) (rest : List SubStrategy) (e : PyError),
      s.gen_signals = .error e →
      CombinedStrategy.collect_signal_columns (s :: rest) = .error e) ∧
    (∀ (s : SubStrategy) (rest : List SubStrategy),
      s.gen_signals = .ok none →
      CombinedStrategy.collect_signal_columns (s :: rest) =
        CombinedStrategy.collect_signal_columns rest) ∧
    (∀ (s : SubStrategy) (rest : List SubStrategy) (col : List ℤ)
        (cols : List (String × List ℤ)),
      s.gen_signals = .ok (some col) →
      CombinedStrategy.collect_signal_columns rest = .ok cols →
      CombinedStrategy.collect_signal_columns (s :: rest) = .ok ((s.name, col) :: cols)) := by
  refine ⟨fun subs => ?_, fun s rest e h => ?_, fun s rest h => ?_,
    fun s rest col cols h hrest => ?_⟩
  · induction subs with
    | nil => rfl
    | cons s rest ih =>
      unfold CombinedStrategy.calculate_indicators
      cases h : s.calc_indicators <;>
        simp [CombinedStrategy.try_except_pass, h, ih, Bind.bind, Except.bind]
  · unfold CombinedStrategy.collect_signal_columns
    rw [h]
  · conv_lhs => rw [CombinedStrategy.collect_signal_columns]
    rw [h]
  · unfold CombinedStrategy.collect_signal_columns
    rw [h, hrest]
    rfl

/-- Witness for C9 (amended): a raising `generate_signals` propagates, a
column-less sub-strategy is skipped, and the indicator pass succeeds even
with a raising sub-strategy in front. -/
theorem error_propagation_spec_witness :
    CombinedStrategy.collect_signal_columns [err_sub, failing_sub] =
      .error (.valueError "请先加载数据") ∧
    CombinedStrategy.collect_signal_columns [none_sub, failing_sub] =
      CombinedStrategy.collect_signal_columns [failing_sub] ∧
    CombinedStrategy.calculate_indicators [failing_sub, none_sub] = .ok () :=
  ⟨error_propagation_spec.2.1 err_sub [failing_sub] (.valueError "请先加载数据") rfl,
   error_propagation_spec.2.2.1 none_sub [failing_sub] rfl,
   error_propagation_spec.1 [failing_sub, none_sub]⟩

